import Mathlib

/-!
Verification of the attention-mask composition, loss alignment, temporal
embedding, input-contract and configuration-serialization logic of
`heron/models/git_llm/git_wizard/modeling_git_wizard.py`.

Tensors are embedded shallowly: a mask tensor of shape
[batch, rows, cols] becomes a function `Nat → Nat → Nat → Int` (batch,
row, column), with the intended dimensions tracked by the bounds appearing
in each theorem.  Float entries of the additive masks only ever matter
through their `.bool()` conversion (nonzero = attend-allowed), so they are
modelled as integers; `torch.finfo(dtype).min` is modelled by a nonzero
stand-in constant.  Hidden-state tensors of shape [batch, seq, hidden]
become `List (List Vec)` with `Vec := List Int`.  External collaborators
(the CLIP image encoder, the visual projection, the decoder blocks, the
token and position embedding tables, dropout, the final layer norm, the
LM head, the vision-config serializer) are parameters of the embedding,
as they live outside this repository.
-/

namespace GitWizard

/-- Hidden vectors: one row of a [.., H] tensor. -/
abbrev Vec := List Int

/-- The `.bool()` conversion of a numeric tensor entry: nonzero means true. -/
def maskBool (x : Int) : Bool := x != 0

/-- Stand-in for `torch.finfo(dtype).min`; only its being nonzero is ever
used (through `maskBool`). -/
def finfo_min : Int := -(2 ^ 128)

/-- Embedding of `GitGPTBigCodeModel._generate_future_mask` (lines 129-135):
`torch.tril(torch.ones(size, size), diagonal=0)`, i.e. entry (i, j) is 1
iff `j ≤ i` (row i sees columns 0..i inclusive).  The `size` argument only
fixes the tensor shape; entries are defined positionally. -/
def generate_future_mask (size : Nat) (i j : Nat) : Int :=
  if j ≤ i then 1 else 0

/-- Embedding of `GitGPTBigCodeModel.create_attention_mask` (lines 137-198),
returning the entry at (batch b, row i, column j) of the additive mask of
shape [batch, M+N, M+pastLen+N] (the singleton head axis added at line 196
is dropped).  `num_tgt` = N is the text/query length, `num_memory` = M the
visual-token count.  Structure of the source:
  * `top_left` (M×M ones), `top_right` (M×(N+pastLen) zeros),
    `bottom_left` (N×M ones) and the bottom-right `tgt_mask` are
    concatenated into the base mask;
  * when `past_key_values_length > 0` the passed `tgt_mask` is replaced by
    an all-ones (N, N+pastLen) block (lines 162-167);
  * a memory-key padding mask (True = padded) adds -1 to every row of each
    padded visual column (lines 174-193); an absent mask defaults to
    all-False.  (The source also raises when the padding mask is not
    boolean; the type of the argument enforces that here.) -/
def create_attention_mask (num_tgt num_memory past_key_values_length : Nat)
    (tgt_mask : Nat → Nat → Int)
    (memory_key_padding_mask : Option (Nat → Nat → Bool)) :
    Nat → Nat → Nat → Int :=
  let tgt_mask2 : Nat → Nat → Int :=
    if 0 < past_key_values_length then fun _ _ => 1 else tgt_mask
  let base : Nat → Nat → Int := fun i j =>
    if j < num_memory then 1
    else if i < num_memory then 0
    else tgt_mask2 (i - num_memory) (j - num_memory)
  let pad : Nat → Nat → Bool := fun b j =>
    match memory_key_padding_mask with
    | none => false
    | some m => m b j
  fun b i j =>
    base i j + (if j < num_memory then (if pad b j then (-1 : Int) else 0) else 0)

/-- Embedding of the module-level `_expand_mask` (lines 76-87): the user
mask [bsz, src_len] is broadcast across rows to [bsz, 1, tgt_len, src_len]
(the head axis is dropped here, rows are the second argument), inverted,
and positions with nonzero inversion are filled with `finfo(dtype).min`.
The result is additive: entry 0 where the user mask is 1, `finfo_min`
where it is 0 (or anything other than 1). -/
def expand_mask (mask : Nat → Nat → Int) : Nat → Nat → Nat → Int :=
  fun b _i j =>
    let expanded := mask b j
    let inverted := 1 - expanded
    if inverted = 0 then inverted else finfo_min

/-- Embedding of the mask composition in `GitGPTBigCodeModel.forward`
(lines 376-403): `create_attention_mask` is called with the causal
`tgt_mask` from `_generate_future_mask`, no memory padding mask, and the
result converted with `.bool()`; if the caller supplied an
`attention_mask` and `past_length == 0`, the boolean of the expanded mask
is logically ANDed into the bottom-right [N, N] sub-block
(`combined[:, :, -N:, -N:]`); at `past_length > 0` the expanded mask is
sliced but never applied.  The entry at (batch b, row i, column j) of the
resulting boolean mask of shape [batch, M+N, M+pastLen+N] is returned
(head axis and the multi-query transpose, which only permute axes, are
dropped). -/
def composed_attention_mask (query_length num_memory past_length : Nat)
    (attention_mask : Option (Nat → Nat → Int)) :
    Nat → Nat → Nat → Bool :=
  let combined : Nat → Nat → Nat → Bool := fun b i j =>
    maskBool (create_attention_mask query_length num_memory past_length
      (generate_future_mask query_length) none b i j)
  match attention_mask with
  | none => combined
  | some am =>
    if 0 < past_length then
      combined
    else
      fun b i j =>
        if num_memory ≤ i ∧ num_memory ≤ j then
          combined b i j && maskBool (expand_mask am b (i - num_memory) (j - num_memory))
        else combined b i j

/-- Modelled from the spec: the plain lower-triangular causal mask of a
text-only decoder, where row i sees columns 0..i inclusive. -/
def causal_mask_spec (i j : Nat) : Bool := decide (j ≤ i)

/-- Embedding of the multi-frame (rank-5 `pixel_values`) visual path of
`GitGPTBigCodeModel.forward` (lines 268-279), taking the per-frame encoder
outputs as given (the image encoder itself is an external collaborator).
Each frame tensor [batch, P, H] gets the temporal embedding of its frame
index added (the stored parameter has shape (1, 1, H), broadcast over
batch and patches), and the frames are concatenated along the sequence
axis (`torch.cat(..., dim=1)`). -/
def temporal_embed (img_temporal_embedding : List Vec)
    (frame_features : List (List (List Vec))) : List (List Vec) :=
  let with_offsets := List.zipWith
    (fun feat off => feat.map (fun ps => ps.map (fun v => List.zipWith (fun x y => x + y) v off)))
    frame_features img_temporal_embedding
  match with_offsets with
  | [] => []
  | t0 :: ts => ts.foldl (fun acc t => List.zipWith (fun a b => a ++ b) acc t) t0

/-- Embedding of the loss alignment of `GitGPTBigCodeForCausalLM.forward`
(lines 555-562): `logits[:, num_image_tokens:-1, :]` flattened
(`view(-1, vocab)`), paired positionally with `labels[:, 1:]` flattened —
the list of (logit, label) pairs handed to `CrossEntropyLoss`. -/
def lm_loss_pairs {α β : Type} (num_image_tokens : Nat)
    (logits : List (List α)) (labels : List (List β)) : List (α × β) :=
  ((logits.map (fun row => (row.drop num_image_tokens).dropLast)).flatten).zip
    ((labels.map (fun row => row.drop 1)).flatten)

/-- The rank structure of `pixel_values`: rank 4 (one image per batch),
rank 5 (a list of frames), or any other rank (rejected at line 281). -/
inductive PixelValues (Img : Type) where
  | rank4 : Img → PixelValues Img
  | rank5 : List Img → PixelValues Img
  | badRank : PixelValues Img

/-- Type of one external decoder block as called at lines 442-451: current
hidden states, this layer cache entry, the combined attention mask, the
use_cache flag; returns new hidden states and a new cache entry.  Head
masks, cross-attention inputs and attention-probability outputs are folded
into the abstract function. -/
abbrev DecoderBlock (CEntry : Type) :=
  List (List Vec) → Option CEntry → (Nat → Nat → Nat → Bool) → Bool →
    (List (List Vec) × CEntry)

/-- The external collaborators and configuration of `GitGPTBigCodeModel`:
the CLIP image encoder (returning [batch, P, H] features), the learned
temporal embeddings, the GitProjection, the cache-entry sequence length
(`past_key_values[0].size(-2)`), the token and position embedding tables
`wte` and `wpe`, dropout, the decoder blocks `h`, the final layer norm,
and `config.use_cache`. -/
structure GitCollab (Img CEntry : Type) where
  image_encoder : Img → List (List Vec)
  img_temporal_embedding : List Vec
  visual_projection : List (List Vec) → List (List Vec)
  entry_len : CEntry → Nat
  wte : Nat → Vec
  wpe : Nat → Vec
  dropout : List (List Vec) → List (List Vec)
  blocks : List (DecoderBlock CEntry)
  ln_f : List (List Vec) → List (List Vec)
  config_use_cache : Bool

/-- The data returned by `GitGPTBigCodeModel.forward` that the causal-LM
wrapper consumes: final hidden states and the `presents` cache. -/
structure ModelOutput (CEntry : Type) where
  last_hidden_state : List (List Vec)
  past_key_values : Option (List CEntry)

/-- The loop over decoder blocks (lines 419-455): `zip(self.h,
past_key_values)` (truncating at the shorter list), threading hidden
states through each block and collecting the per-layer cache entries. -/
def decoder_run {CEntry : Type} (blocks : List (DecoderBlock CEntry))
    (pasts : List (Option CEntry)) (mask : Nat → Nat → Nat → Bool)
    (use_cache : Bool) (hidden : List (List Vec)) :
    List (List Vec) × List CEntry :=
  match blocks, pasts with
  | [], _ => (hidden, [])
  | _ :: _, [] => (hidden, [])
  | blk :: bs, p :: ps =>
    let out := blk hidden p mask use_cache
    let rest := decoder_run bs ps mask use_cache out.1
    (rest.1, out.2 :: rest.2)

/-- The GIT vision-encoder part of `forward` (lines 261-283): visual
features are computed only when `pixel_values is not None` and
`past_key_values is None`; rank 4 goes straight through the encoder, rank
5 through the temporal embedding and concatenation, any other rank raises;
the result passes through the visual projection. -/
def visual_branch {Img CEntry : Type} (collab : GitCollab Img CEntry)
    (pixel_values : Option (PixelValues Img))
    (past_key_values : Option (List CEntry)) :
    Except String (Option (List (List Vec))) :=
  match pixel_values, past_key_values with
  | some (.rank4 img), none =>
      .ok (some (collab.visual_projection (collab.image_encoder img)))
  | some (.rank5 frames), none =>
      .ok (some (collab.visual_projection
        (temporal_embed collab.img_temporal_embedding
          (frames.map collab.image_encoder))))
  | some .badRank, none => .error "pixel_values must be of rank 4 or 5"
  | _, _ => .ok none

/-- The fusion and decoding part of `forward` after the visual branch
(lines 285-488): a missing visual block becomes a zero-length [batch, 0,
H] block (lines 329-334), the visual block is repeated to match the text
batch (lines 336-339) and concatenated before the text embeddings (line
341), default position ids run from `past_length` over the fused length
(lines 343-353), position embeddings (and token-type embeddings when ids
are supplied) are added, dropout is applied, the combined attention mask
is built, and the decoder blocks run; `presents` is collected only when
`use_cache` is set (lines 413, 454-455). -/
def model_forward_tail {Img CEntry : Type} (collab : GitCollab Img CEntry)
    (query_length : Nat) (inputs_embeds : List (List Vec))
    (projected? : Option (List (List Vec)))
    (past_key_values : Option (List CEntry))
    (attention_mask : Option (List (List Int)))
    (token_type_ids position_ids : Option (List (List Nat)))
    (use_cache : Bool) : ModelOutput CEntry :=
  let past_length : Nat :=
    match past_key_values with
    | none => 0
    | some pks => ((pks.head?).map collab.entry_len).getD 0
  let projected : List (List Vec) :=
    match projected? with
    | none => inputs_embeds.map (fun _ => ([] : List Vec))
    | some p => p
  let projected := (List.replicate (inputs_embeds.length / projected.length) projected).flatten
  let hidden := List.zipWith (fun vis txt => vis ++ txt) projected inputs_embeds
  let pos : Nat → Nat → Nat :=
    match position_ids with
    | none => fun _ s => past_length + s
    | some pids => fun b s => (pids.getD b []).getD s 0
  let hidden := List.zipWith
    (fun b row => List.zipWith
      (fun s v => List.zipWith (fun x y => x + y) v (collab.wpe (pos b s)))
      (List.range row.length) row)
    (List.range hidden.length) hidden
  let hidden :=
    match token_type_ids with
    | none => hidden
    | some tt => List.zipWith
        (fun row ttrow => List.zipWith
          (fun v t => List.zipWith (fun x y => x + y) v (collab.wte t)) row ttrow)
        hidden tt
  let hidden := collab.dropout hidden
  let num_memory := ((projected.headD []) : List Vec).length
  let amF : Option (Nat → Nat → Int) :=
    attention_mask.map (fun am => fun b j => ((am.getD b []).getD j 0))
  let mask := composed_attention_mask query_length num_memory past_length amF
  let pasts : List (Option CEntry) :=
    match past_key_values with
    | none => List.replicate collab.blocks.length none
    | some pks => pks.map some
  let res := decoder_run collab.blocks pasts mask use_cache hidden
  { last_hidden_state := collab.ln_f res.1,
    past_key_values := if use_cache then some res.2 else none }

/-- `forward` after input validation: visual branch, then fusion and
decoding; a visual-branch error (bad rank) propagates. -/
def model_forward_core {Img CEntry : Type} (collab : GitCollab Img CEntry)
    (query_length : Nat) (inputs_embeds : List (List Vec))
    (past_key_values : Option (List CEntry))
    (attention_mask : Option (List (List Int)))
    (token_type_ids position_ids : Option (List (List Nat)))
    (pixel_values : Option (PixelValues Img))
    (use_cache : Bool) : Except String (ModelOutput CEntry) :=
  match visual_branch collab pixel_values past_key_values with
  | .error e => .error e
  | .ok projected? =>
      .ok (model_forward_tail collab query_length inputs_embeds projected?
        past_key_values attention_mask token_type_ids position_ids use_cache)

/-- Embedding of `GitGPTBigCodeModel.forward` (lines 200-488).  Input
validation (lines 228-244) precedes everything else: supplying both
`input_ids` and `inputs_embeds`, or neither, or an empty batch, rejects
the call with a `ValueError` before the vision encoder, the fusion, or the
mask computation runs — the collaborators are never applied on those
paths.  Token ids are embedded through `wte` (lines 285-286).
`query_length` is `input_shape[-1]`.  (Head masks, cross-attention and the
output-attentions/hidden-states flags are orthogonal pass-throughs and are
not modelled.) -/
def model_forward {Img CEntry : Type} (collab : GitCollab Img CEntry)
    (input_ids : Option (List (List Nat)))
    (past_key_values : Option (List CEntry))
    (attention_mask : Option (List (List Int)))
    (token_type_ids position_ids : Option (List (List Nat)))
    (pixel_values : Option (PixelValues Img))
    (inputs_embeds : Option (List (List Vec)))
    (use_cache : Option Bool) : Except String (ModelOutput CEntry) :=
  let use_cache := use_cache.getD collab.config_use_cache
  match input_ids, inputs_embeds with
  | some _, some _ =>
      .error "You cannot specify both input_ids and inputs_embeds at the same time"
  | some ids, none =>
      if ids.length = 0 then .error "batch_size has to be defined and > 0"
      else model_forward_core collab ((ids.headD []) : List Nat).length
        (ids.map (fun row => row.map collab.wte)) past_key_values attention_mask
        token_type_ids position_ids pixel_values use_cache
  | none, some emb =>
      if emb.length = 0 then .error "batch_size has to be defined and > 0"
      else model_forward_core collab ((emb.headD []) : List Vec).length emb
        past_key_values attention_mask token_type_ids position_ids pixel_values
        use_cache
  | none, none => .error "You have to specify either input_ids or inputs_embeds"

/-- What `GitGPTBigCodeForCausalLM.forward` returns: the loss (here, the
cross-entropy pairing handed to the external `CrossEntropyLoss`, `none`
when labels are absent), the logits, and the cache passed through from the
inner model. -/
structure CausalLMOutput (CEntry : Type) where
  loss : Option (List (Vec × Int))
  logits : List (List Vec)
  past_key_values : Option (List CEntry)

/-- Embedding of `GitGPTBigCodeForCausalLM.forward` (lines 504-574): when
labels are supplied, `use_cache` is overwritten with `False` before the
inner model runs (lines 536-537); the inner model is called (the LM
wrapper passes no token-type ids), the LM head maps hidden states to
logits, and the shifted loss pairing is built when labels are present.
`image_patch_tokens` is the configured visual-prefix length
(`self.model.image_patch_tokens`). -/
def lm_forward {Img CEntry : Type} (collab : GitCollab Img CEntry)
    (lm_head : Vec → Vec) (image_patch_tokens : Nat)
    (input_ids : Option (List (List Nat)))
    (attention_mask : Option (List (List Int)))
    (position_ids : Option (List (List Nat)))
    (pixel_values : Option (PixelValues Img))
    (inputs_embeds : Option (List (List Vec)))
    (labels : Option (List (List Int)))
    (past_key_values : Option (List CEntry))
    (use_cache : Option Bool) : Except String (CausalLMOutput CEntry) :=
  let use_cache := if labels.isSome then some false else use_cache
  match model_forward collab input_ids past_key_values attention_mask none
      position_ids pixel_values inputs_embeds use_cache with
  | .error e => .error e
  | .ok outputs =>
    let logits := outputs.last_hidden_state.map (fun row => row.map lm_head)
    let loss := labels.map (fun ys => lm_loss_pairs image_patch_tokens logits ys)
    .ok { loss := loss, logits := logits,
          past_key_values := outputs.past_key_values }

/-- Values of a Python attribute dictionary, as far as `to_dict` observes
them: strings, numbers, a still-nested vision-config object, or an already
serialized sub-dictionary. -/
inductive DVal (VC : Type) where
  | str : String → DVal VC
  | int : Int → DVal VC
  | visionObj : VC → DVal VC
  | dict : List (String × DVal VC) → DVal VC

/-- Python dictionary assignment `d[k] = v` on an association list:
replace the binding when the key is present, append it otherwise. -/
def dictSet {VC : Type} (d : List (String × DVal VC)) (k : String)
    (v : DVal VC) : List (String × DVal VC) :=
  if d.any (fun kv => k == kv.1) then
    d.map (fun kv => if k == kv.1 then (k, v) else kv)
  else d ++ [(k, v)]

/-- The state of a `GitGPTBigCodeConfig` instance as `to_dict` observes
it: the embedded vision sub-configuration (an attribute set in `__init__`)
and the remaining instance attributes. -/
structure GitGPTBigCodeConfigData (VC : Type) where
  vision_config : VC
  attrs : List (String × DVal VC)

/-- `copy.deepcopy(self.__dict__)` (line 69): all instance attributes,
with `vision_config` bound to the nested config object itself. -/
def config_dict {VC : Type} (cfg : GitGPTBigCodeConfigData VC) :
    List (String × DVal VC) :=
  ("vision_config", DVal.visionObj cfg.vision_config) :: cfg.attrs

/-- Embedding of `GitGPTBigCodeConfig.to_dict` (lines 64-72): deep-copy
the attribute dictionary, overwrite `vision_config` with the recursively
serialized vision config (`self.vision_config.to_dict()`, an external
collaborator passed as `vc_to_dict`), and overwrite `model_type` with the
class-level identifier `"git_llama"` (line 40). -/
def config_to_dict {VC : Type} (vc_to_dict : VC → List (String × DVal VC))
    (cfg : GitGPTBigCodeConfigData VC) : List (String × DVal VC) :=
  dictSet
    (dictSet (config_dict cfg) "vision_config"
      (DVal.dict (vc_to_dict cfg.vision_config)))
    "model_type" (DVal.str "git_llama")

/-- Concrete per-frame feature tensor ([batch 1, P 4, H 1]) used by the
temporal-embedder witness. -/
def witnessFrame : List (List Vec) := [[[0], [0], [0], [0]]]

/-- Concrete temporal offsets (two frames, H = 1) used by the
temporal-embedder witness. -/
def witnessOffsets : List Vec := [[10], [20]]

/-! ## Helper lemmas -/

theorem mem_zipWith {α β γ : Type} {f : α → β → γ} :
    ∀ {as : List α} {bs : List β} {c : γ}, c ∈ List.zipWith f as bs →
      ∃ a, a ∈ as ∧ ∃ b, b ∈ bs ∧ c = f a b := by
  intro as
  induction as with
  | nil => intro bs c h; simp [List.zipWith] at h
  | cons a as ih =>
    intro bs c h
    cases bs with
    | nil => simp [List.zipWith] at h
    | cons b bs =>
      rw [List.zipWith_cons_cons] at h
      rcases List.mem_cons.mp h with h | h
      · exact ⟨a, List.mem_cons_self a as, b, List.mem_cons_self b bs, h⟩
      · obtain ⟨a1, ha, b1, hb, rfl⟩ := ih h
        exact ⟨a1, List.mem_cons_of_mem _ ha, b1, List.mem_cons_of_mem _ hb, rfl⟩

theorem foldl_zipWith_append_spec {α : Type} (B P : Nat) :
    ∀ (ts : List (List (List α))) (acc : List (List α)) (L : Nat),
      acc.length = B → (∀ r ∈ acc, r.length = L) →
      (∀ t ∈ ts, t.length = B) → (∀ t ∈ ts, ∀ r ∈ t, r.length = P) →
      (ts.foldl (fun acc t => List.zipWith (fun a b => a ++ b) acc t) acc).length = B ∧
      ∀ r ∈ ts.foldl (fun acc t => List.zipWith (fun a b => a ++ b) acc t) acc,
        r.length = L + P * ts.length := by
  intro ts
  induction ts with
  | nil =>
    intro acc L h1 h2 _ _
    refine ⟨h1, ?_⟩
    intro r hr
    simp only [List.foldl_nil] at hr
    simp [h2 r hr]
  | cons t ts ih =>
    intro acc L h1 h2 h3 h4
    have ht : t.length = B := h3 t (List.mem_cons_self t ts)
    have hlen2 : (List.zipWith (fun a b => a ++ b) acc t).length = B := by
      rw [List.length_zipWith, h1, ht, Nat.min_self]
    have hrows2 : ∀ r ∈ List.zipWith (fun a b => a ++ b) acc t, r.length = L + P := by
      intro r hr
      obtain ⟨a, ha, b, hb, rfl⟩ := mem_zipWith hr
      rw [List.length_append, h2 a ha, h4 t (List.mem_cons_self t ts) b hb]
    have hrec := ih (List.zipWith (fun a b => a ++ b) acc t) (L + P) hlen2 hrows2
      (fun u hu => h3 u (List.mem_cons_of_mem _ hu))
      (fun u hu => h4 u (List.mem_cons_of_mem _ hu))
    refine ⟨hrec.1, ?_⟩
    intro r hr
    rw [hrec.2 r hr, List.length_cons, Nat.mul_succ]
    omega

theorem zipWith_add_sub_delta :
    ∀ (v o0 o1 : Vec), v.length = o0.length → o0.length = o1.length →
      List.zipWith (fun x y => x - y)
          (List.zipWith (fun x y => x + y) v o1)
          (List.zipWith (fun x y => x + y) v o0)
        = List.zipWith (fun x y => x - y) o1 o0 := by
  intro v
  induction v with
  | nil =>
    intro o0 o1 h1 h2
    cases o0 with
    | nil => cases o1 <;> simp_all
    | cons b o0 => simp at h1
  | cons a v ih =>
    intro o0 o1 h1 h2
    cases o0 with
    | nil => simp at h1
    | cons b o0 =>
      cases o1 with
      | nil => simp at h2
      | cons c o1 =>
        simp only [List.zipWith_cons_cons]
        rw [ih o0 o1 (by simpa using h1) (by simpa using h2)]
        congr 1
        ring

theorem lookup_cons_eq {VC : Type} (a : String) (p : String × DVal VC)
    (l : List (String × DVal VC)) :
    List.lookup a (p :: l) = if a == p.1 then some p.2 else List.lookup a l := by
  obtain ⟨k1, v1⟩ := p
  cases h : a == k1 <;> simp [List.lookup, h]

theorem lookup_map_replace {VC : Type} (k : String) (v : DVal VC) :
    ∀ d : List (String × DVal VC), d.any (fun kv => k == kv.1) = true →
      (d.map (fun kv => if k == kv.1 then (k, v) else kv)).lookup k = some v := by
  intro d
  induction d with
  | nil => intro h; simp at h
  | cons kv d ih =>
    intro h
    by_cases hk : (k == kv.1) = true
    · rw [List.map_cons, if_pos hk, lookup_cons_eq]
      simp
    · rw [Bool.not_eq_true] at hk
      rw [List.map_cons, if_neg (by simp [hk]), lookup_cons_eq, if_neg (by simp [hk])]
      apply ih
      simpa [hk] using h

theorem lookup_append_new {VC : Type} (k : String) (v : DVal VC) :
    ∀ d : List (String × DVal VC), d.any (fun kv => k == kv.1) = false →
      (d ++ [(k, v)]).lookup k = some v := by
  intro d
  induction d with
  | nil => intro _; simp [lookup_cons_eq, List.lookup]
  | cons kv d ih =>
    intro h
    simp only [List.any_cons, Bool.or_eq_false_iff] at h
    rw [List.cons_append, lookup_cons_eq, if_neg (by simp [h.1])]
    exact ih h.2

theorem lookup_map_replace_ne {VC : Type} (k k2 : String) (v : DVal VC)
    (hne : (k2 == k) = false) :
    ∀ d : List (String × DVal VC),
      (d.map (fun kv => if k == kv.1 then (k, v) else kv)).lookup k2
        = d.lookup k2 := by
  intro d
  induction d with
  | nil => rfl
  | cons kv d ih =>
    rw [List.map_cons, lookup_cons_eq, lookup_cons_eq]
    by_cases hk : (k == kv.1) = true
    · have hkv : k = kv.1 := by simpa using hk
      have h2 : ¬ ((k2 == k) = true) := by simp [hne]
      have h3 : ¬ ((k2 == kv.1) = true) := by rw [← hkv]; exact h2
      rw [if_pos hk]
      rw [show ((k, v) : String × DVal VC).1 = k from rfl]
      rw [if_neg h2, if_neg h3]
      exact ih
    · rw [if_neg hk]
      by_cases hx : (k2 == kv.1) = true
      · rw [if_pos hx, if_pos hx]
      · rw [if_neg hx, if_neg hx, ih]

theorem lookup_append_ne {VC : Type} (k k2 : String) (v : DVal VC)
    (hne : (k2 == k) = false) :
    ∀ d : List (String × DVal VC),
      (d ++ [(k, v)]).lookup k2 = d.lookup k2 := by
  intro d
  induction d with
  | nil => simp [lookup_cons_eq, hne, List.lookup]
  | cons kv d ih =>
    rw [List.cons_append, lookup_cons_eq, lookup_cons_eq]
    by_cases hx : (k2 == kv.1) = true
    · rw [if_pos hx, if_pos hx]
    · rw [if_neg hx, if_neg hx, ih]

theorem dictSet_lookup_self {VC : Type} (d : List (String × DVal VC))
    (k : String) (v : DVal VC) : (dictSet d k v).lookup k = some v := by
  unfold dictSet
  split
  · exact lookup_map_replace k v d (by assumption)
  · rename_i h
    rw [Bool.not_eq_true] at h
    exact lookup_append_new k v d h

theorem dictSet_lookup_ne {VC : Type} (d : List (String × DVal VC))
    (k k2 : String) (v : DVal VC) (hne : (k2 == k) = false) :
    (dictSet d k v).lookup k2 = d.lookup k2 := by
  unfold dictSet
  split
  · exact lookup_map_replace_ne k k2 v hne d
  · exact lookup_append_ne k k2 v hne d

theorem visual_branch_past_some {Img CEntry : Type} (collab : GitCollab Img CEntry)
    (pixel_values : Option (PixelValues Img)) (pks : List CEntry) :
    visual_branch collab pixel_values (some pks) = .ok none := by
  cases pixel_values with
  | none => rfl
  | some pv => cases pv <;> rfl

theorem model_forward_core_pixel_ignored {Img CEntry : Type}
    (collab : GitCollab Img CEntry) (ql : Nat) (emb : List (List Vec))
    (pks : List CEntry) (am : Option (List (List Int)))
    (tt pid : Option (List (List Nat))) (pv : Option (PixelValues Img))
    (uc : Bool) :
    model_forward_core collab ql emb (some pks) am tt pid pv uc
      = model_forward_core collab ql emb (some pks) am tt pid none uc := by
  unfold model_forward_core
  rw [visual_branch_past_some, visual_branch_past_some]

theorem model_forward_pixel_ignored {Img CEntry : Type}
    (collab : GitCollab Img CEntry) (iid : Option (List (List Nat)))
    (pks : List CEntry) (am : Option (List (List Int)))
    (tt pid : Option (List (List Nat))) (pv : Option (PixelValues Img))
    (emb : Option (List (List Vec))) (uc : Option Bool) :
    model_forward collab iid (some pks) am tt pid pv emb uc
      = model_forward collab iid (some pks) am tt pid none emb uc := by
  cases iid <;> cases emb <;>
    simp only [model_forward, model_forward_core_pixel_ignored]

theorem model_forward_core_no_cache {Img CEntry : Type}
    (collab : GitCollab Img CEntry) (ql : Nat) (emb : List (List Vec))
    (pks : Option (List CEntry)) (am : Option (List (List Int)))
    (tt pid : Option (List (List Nat))) (pv : Option (PixelValues Img))
    (o : ModelOutput CEntry)
    (h : model_forward_core collab ql emb pks am tt pid pv false = .ok o) :
    o.past_key_values = none := by
  unfold model_forward_core at h
  split at h
  · simp at h
  · injection h with h2
    rw [← h2]
    rfl

theorem model_forward_no_cache {Img CEntry : Type}
    (collab : GitCollab Img CEntry) (iid : Option (List (List Nat)))
    (pks : Option (List CEntry)) (am : Option (List (List Int)))
    (tt pid : Option (List (List Nat))) (pv : Option (PixelValues Img))
    (emb : Option (List (List Vec))) (o : ModelOutput CEntry)
    (h : model_forward collab iid pks am tt pid pv emb (some false) = .ok o) :
    o.past_key_values = none := by
  cases iid with
  | none =>
    cases emb with
    | none => simp [model_forward] at h
    | some emb =>
      simp only [model_forward, Option.getD_some] at h
      split at h
      · simp at h
      · exact model_forward_core_no_cache collab _ emb pks am tt pid pv o h
  | some ids =>
    cases emb with
    | some emb => simp [model_forward] at h
    | none =>
      simp only [model_forward, Option.getD_some] at h
      split at h
      · simp at h
      · exact model_forward_core_no_cache collab _ _ pks am tt pid pv o h

/-- A successful end-to-end run of the embedded forward on a minimal
concrete instance (no decoder layers, one token), showing the embedding
has non-error executions. -/
theorem lm_forward_concrete_run :
    @lm_forward Unit Unit
      { image_encoder := fun _ => [], img_temporal_embedding := [],
        visual_projection := fun x => x, entry_len := fun _ => 0,
        wte := fun _ => [0], wpe := fun _ => [0], dropout := fun x => x,
        blocks := [], ln_f := fun x => x, config_use_cache := false }
      (fun v => v) 0 (some [[5]]) none none none none none none none
      = .ok { loss := none, logits := [[[0]]], past_key_values := none } := by
  rfl

/-! ## Claims -/

/-- C1 (code evaluation at the failing input): with `pastLen = 0`, `M = 0`
visual tokens, `N = 2` text positions and the user attention mask all ones
(both text positions valid), the claim predicts the bottom-right block to
be the causal mask ANDed with the broadcast user mask, hence entry (1, 0)
true; the code produces false there (and at every entry of the block,
second conjunct at (1, 1)), while without a user mask the same entry is
true.  `_expand_mask` produces an additive mask whose `.bool()` is true
exactly at user-masked-out positions, and `forward` ANDs that in without
re-inverting it. -/
theorem c1_user_mask_applied_inverted :
    composed_attention_mask 2 0 0 (some (fun _ _ => 1)) 0 1 0 = false ∧
    composed_attention_mask 2 0 0 (some (fun _ _ => 1)) 0 1 1 = false ∧
    (causal_mask_spec 1 0 && maskBool 1) = true ∧
    composed_attention_mask 2 0 0 none 0 1 0 = true := by
  refine ⟨?_, ?_, ?_, ?_⟩ <;> decide

/-- C2: for every call with `pastLen > 0`, every entry of the bottom-right
[N, pastLen+N] block (text rows, i.e. rows M ≤ i < M+N, against cached and
text columns M ≤ j < M+pastLen+N) of the composed attention mask is true,
for every user attention mask including an absent one: at `pastLen > 0`
the composer replaces the causal block with all ones, and `forward` never
ANDs the expanded user mask in. -/
theorem c2_past_bottom_right_all_true (N M p : Nat) (hp : 0 < p)
    (am : Option (Nat → Nat → Int)) (b i j : Nat)
    (hi1 : M ≤ i) (hi2 : i < M + N) (hj1 : M ≤ j) (hj2 : j < M + p + N) :
    composed_attention_mask N M p am b i j = true := by
  have hjlt : ¬ j < M := Nat.not_lt.mpr hj1
  have hilt : ¬ i < M := Nat.not_lt.mpr hi1
  have hcreate : create_attention_mask N M p (generate_future_mask N) none b i j = 1 := by
    simp only [create_attention_mask, if_pos hp, if_neg hjlt, if_neg hilt, add_zero]
  cases am with
  | none =>
      simp only [composed_attention_mask, hcreate]
      rfl
  | some am =>
      simp only [composed_attention_mask, if_pos hp, hcreate]
      rfl

/-- Witness for C2 at N = 1, M = 1, p = 1, no user mask, entry (1, 1). -/
theorem c2_past_bottom_right_all_true_witness :
    0 < 1 ∧ composed_attention_mask 1 1 1 none 0 1 1 = true :=
  ⟨by decide,
   c2_past_bottom_right_all_true 1 1 1 (by decide) none 0 1 1
     (by decide) (by decide) (by decide) (by decide)⟩

/-- C3: for every call to the mask composer with a memory padding mask and
any visual column j < M, the boolean entry at (b, i, j) — for every row i,
visual and text rows alike — is true iff visual position j is not marked
padded: the left blocks are all ones and the padding update adds -1 to
exactly the padded columns.  In particular with no position padded the
whole top-left [M, M] block is true, and a padded column is false for
every row. -/
theorem c3_memory_padding_columns (N M p : Nat) (tgt_mask : Nat → Nat → Int)
    (pad : Nat → Nat → Bool) (b i j : Nat)
    (hi : i < M + N) (hj : j < M) :
    maskBool (create_attention_mask N M p tgt_mask (some pad) b i j) = !(pad b j) := by
  simp only [create_attention_mask, if_pos hj]
  rcases Bool.eq_false_or_eq_true (pad b j) with hpad | hpad <;>
    simp [hpad, maskBool]

/-- Witness for C3 at N = 1, M = 2, p = 0, column 1 padded: column 0 entry
is true and column 1 entry is false, at a text row. -/
theorem c3_memory_padding_columns_witness :
    ((2 : Nat) < 2 + 1 ∧ (0 : Nat) < 2 ∧
      maskBool (create_attention_mask 1 2 0 (generate_future_mask 1)
        (some (fun _ j => j == 1)) 0 2 0) = !((fun (_ j : Nat) => j == 1) 0 0)) ∧
    maskBool (create_attention_mask 1 2 0 (generate_future_mask 1)
      (some (fun _ j => j == 1)) 0 2 1) = !((fun (_ j : Nat) => j == 1) 0 1) :=
  ⟨⟨by decide, by decide,
    c3_memory_padding_columns 1 2 0 (generate_future_mask 1)
      (fun _ j => j == 1) 0 2 0 (by decide) (by decide)⟩,
   c3_memory_padding_columns 1 2 0 (generate_future_mask 1)
     (fun _ j => j == 1) 0 2 1 (by decide) (by decide)⟩

/-- C4: with `M = 0` visual tokens and `pastLen = 0`, every entry (i, j)
with i, j < N of the composed mask equals the plain causal mask produced
by `_generate_future_mask` for a text-only decoder, and equals the
spec-worded lower-triangular causal mask (row i sees columns 0..i). -/
theorem c4_no_image_pure_causal (N : Nat) (b i j : Nat)
    (hi : i < N) (hj : j < N) :
    maskBool (create_attention_mask N 0 0 (generate_future_mask N) none b i j)
        = maskBool (generate_future_mask N i j) ∧
    maskBool (create_attention_mask N 0 0 (generate_future_mask N) none b i j)
        = causal_mask_spec i j := by
  have hbase : create_attention_mask N 0 0 (generate_future_mask N) none b i j
      = generate_future_mask N i j := by
    simp [create_attention_mask]
  refine ⟨by rw [hbase], ?_⟩
  rw [hbase]
  by_cases h : j ≤ i
  · simp [generate_future_mask, causal_mask_spec, h, maskBool]
  · simp [generate_future_mask, causal_mask_spec, h, maskBool]

/-- C5: with batch size 1, a visual prefix of `num_image_tokens = 3`, text
length 5 and hence logits sequence length 8, the cross-entropy pairing
built by the loss alignment is exactly logit positions 3..6 against labels
t1..t4 — four terms, never logit position 7 nor label t0 (first conjunct);
and when no labels are supplied, the causal-LM forward returns no loss
(second conjunct, for every outcome of the call). -/
theorem c5_loss_alignment (α β : Type) (l0 l1 l2 l3 l4 l5 l6 l7 : α)
    (t0 t1 t2 t3 t4 : β) (Img CEntry : Type) (collab : GitCollab Img CEntry)
    (lm_head : Vec → Vec) (ipt : Nat) (iid : Option (List (List Nat)))
    (am : Option (List (List Int))) (pid : Option (List (List Nat)))
    (pv : Option (PixelValues Img)) (emb : Option (List (List Vec)))
    (pks : Option (List CEntry)) (uc : Option Bool) :
    lm_loss_pairs 3 [[l0, l1, l2, l3, l4, l5, l6, l7]] [[t0, t1, t2, t3, t4]]
        = [(l3, t1), (l4, t2), (l5, t3), (l6, t4)] ∧
    (lm_forward collab lm_head ipt iid am pid pv emb none pks uc).map
        (fun out => out.loss)
      = (lm_forward collab lm_head ipt iid am pid pv emb none pks uc).map
        (fun _ => none) := by
  constructor
  · rfl
  · simp only [lm_forward, Option.isSome_none, Bool.false_eq_true, if_false]
    cases hmf : model_forward collab iid pks am none pid pv emb uc with
    | error e => rfl
    | ok outputs => rfl

/-- C6: the temporal embedder, given per-frame feature tensors (each
[batch B, P, H]) and a matching number of per-frame offset vectors,
produces a [B, P×numFrames, H] tensor: batch size B and every row of
sequence length P times the number of frames (first conjunct; with 2
frames and P = 4 the row length is 8).  With two identical frames the
output rows are the frame-0 features shifted elementwise by offset 0
followed by the same features shifted by offset 1 (second conjunct), and
shifting the same base vector by the two offsets makes the results differ
elementwise by exactly the offset delta (third conjunct). -/
theorem c6_temporal_embedder (B P : Nat) (img_temporal_embedding : List Vec)
    (frame_features : List (List (List Vec)))
    (hne : frame_features ≠ [])
    (hlen : img_temporal_embedding.length = frame_features.length)
    (hB : ∀ t ∈ frame_features, t.length = B)
    (hP : ∀ t ∈ frame_features, ∀ r ∈ t, r.length = P) :
    ((temporal_embed img_temporal_embedding frame_features).length = B ∧
      ∀ r ∈ temporal_embed img_temporal_embedding frame_features,
        r.length = P * frame_features.length) ∧
    (∀ (feat : List (List Vec)) (o0 o1 : Vec),
      temporal_embed [o0, o1] [feat, feat]
        = List.zipWith (fun r0 r1 => r0 ++ r1)
            (feat.map (fun ps => ps.map (fun v => List.zipWith (fun x y => x + y) v o0)))
            (feat.map (fun ps => ps.map (fun v => List.zipWith (fun x y => x + y) v o1)))) ∧
    (∀ (v o0 o1 : Vec), v.length = o0.length → o0.length = o1.length →
      List.zipWith (fun x y => x - y)
          (List.zipWith (fun x y => x + y) v o1)
          (List.zipWith (fun x y => x + y) v o0)
        = List.zipWith (fun x y => x - y) o1 o0) := by
  refine ⟨?_, fun feat o0 o1 => rfl, zipWith_add_sub_delta⟩
  cases frame_features with
  | nil => exact absurd rfl hne
  | cons t fs =>
    cases img_temporal_embedding with
    | nil => simp at hlen
    | cons o os =>
      have hunfold : temporal_embed (o :: os) (t :: fs)
          = (List.zipWith
              (fun feat off => feat.map
                (fun ps => ps.map (fun v => List.zipWith (fun x y => x + y) v off)))
              fs os).foldl (fun acc t2 => List.zipWith (fun a b => a ++ b) acc t2)
              (t.map (fun ps => ps.map (fun v => List.zipWith (fun x y => x + y) v o))) :=
        rfl
      rw [hunfold]
      have hos : os.length = fs.length := by simpa using hlen
      have hts : (List.zipWith
          (fun feat off => feat.map
            (fun ps => ps.map (fun v => List.zipWith (fun x y => x + y) v off)))
          fs os).length = fs.length := by
        rw [List.length_zipWith, hos, Nat.min_self]
      have haccB : (t.map
          (fun ps => ps.map (fun v => List.zipWith (fun x y => x + y) v o))).length = B := by
        rw [List.length_map]
        exact hB t (List.mem_cons_self t fs)
      have haccP : ∀ r ∈ t.map
          (fun ps => ps.map (fun v => List.zipWith (fun x y => x + y) v o)),
          r.length = P := by
        intro r hr
        obtain ⟨ps, hps, rfl⟩ := List.mem_map.mp hr
        rw [List.length_map]
        exact hP t (List.mem_cons_self t fs) ps hps
      have htsB : ∀ u ∈ List.zipWith
          (fun feat off => feat.map
            (fun ps => ps.map (fun v => List.zipWith (fun x y => x + y) v off)))
          fs os, u.length = B := by
        intro u hu
        obtain ⟨a, ha, bo, hbo, rfl⟩ := mem_zipWith hu
        rw [List.length_map]
        exact hB a (List.mem_cons_of_mem _ ha)
      have htsP : ∀ u ∈ List.zipWith
          (fun feat off => feat.map
            (fun ps => ps.map (fun v => List.zipWith (fun x y => x + y) v off)))
          fs os, ∀ r ∈ u, r.length = P := by
        intro u hu r hr
        obtain ⟨a, ha, bo, hbo, rfl⟩ := mem_zipWith hu
        obtain ⟨ps, hps, rfl⟩ := List.mem_map.mp hr
        rw [List.length_map]
        exact hP a (List.mem_cons_of_mem _ ha) ps hps
      have hspec := foldl_zipWith_append_spec B P _ _ P haccB haccP htsB htsP
      refine ⟨hspec.1, ?_⟩
      intro r hr
      rw [hspec.2 r hr, hts, List.length_cons, Nat.mul_succ]
      omega

/-- Witness for C6: batch 1, patch count 4, two frames with matching
offsets; the output has one batch row of sequence length 4 × 2 = 8. -/
theorem c6_temporal_embedder_witness :
    ([witnessFrame, witnessFrame] ≠ ([] : List (List (List Vec))) ∧
     witnessOffsets.length = [witnessFrame, witnessFrame].length ∧
     (∀ t ∈ [witnessFrame, witnessFrame], t.length = 1) ∧
     (∀ t ∈ [witnessFrame, witnessFrame], ∀ r ∈ t, r.length = 4)) ∧
    (((temporal_embed witnessOffsets [witnessFrame, witnessFrame]).length = 1 ∧
      ∀ r ∈ temporal_embed witnessOffsets [witnessFrame, witnessFrame],
        r.length = 4 * [witnessFrame, witnessFrame].length) ∧
     (∀ (feat : List (List Vec)) (o0 o1 : Vec),
       temporal_embed [o0, o1] [feat, feat]
         = List.zipWith (fun r0 r1 => r0 ++ r1)
             (feat.map (fun ps => ps.map (fun v => List.zipWith (fun x y => x + y) v o0)))
             (feat.map (fun ps => ps.map (fun v => List.zipWith (fun x y => x + y) v o1)))) ∧
     (∀ (v o0 o1 : Vec), v.length = o0.length → o0.length = o1.length →
       List.zipWith (fun x y => x - y)
           (List.zipWith (fun x y => x + y) v o1)
           (List.zipWith (fun x y => x + y) v o0)
         = List.zipWith (fun x y => x - y) o1 o0)) :=
  ⟨⟨by decide, by decide, by decide, by decide⟩,
   c6_temporal_embedder 1 4 witnessOffsets [witnessFrame, witnessFrame]
     (by decide) (by decide) (by decide) (by decide)⟩

/-- C7: supplying both `input_ids` and `inputs_embeds`, or neither,
rejects the `forward` call with the corresponding `ValueError` — for every
value of every collaborator (image encoder, projection, decoder blocks,
...), so no visual encoding, fusion or mask computation contributes to the
result and no partial result is produced: the outcome is exactly the
error. -/
theorem c7_input_contract_rejection (Img CEntry : Type)
    (collab : GitCollab Img CEntry) (ids : List (List Nat))
    (emb : List (List Vec)) (past : Option (List CEntry))
    (am : Option (List (List Int))) (tt pid : Option (List (List Nat)))
    (pv : Option (PixelValues Img)) (uc : Option Bool) :
    model_forward collab (some ids) past am tt pid pv (some emb) uc
      = .error "You cannot specify both input_ids and inputs_embeds at the same time" ∧
    model_forward collab none past am tt pid pv none uc
      = .error "You have to specify either input_ids or inputs_embeds" :=
  ⟨rfl, rfl⟩

/-- C8: serializing a configuration puts the recursively serialized vision
sub-configuration (the dictionary form produced by the external
`vision_config.to_dict`, not the nested object) under `vision_config`, and
sets `model_type` to the class-level identifier `"git_llama"`. -/
theorem c8_config_to_dict (VC : Type)
    (vc_to_dict : VC → List (String × DVal VC))
    (cfg : GitGPTBigCodeConfigData VC) :
    (config_to_dict vc_to_dict cfg).lookup "vision_config"
        = some (DVal.dict (vc_to_dict cfg.vision_config)) ∧
    (config_to_dict vc_to_dict cfg).lookup "model_type"
        = some (DVal.str "git_llama") := by
  unfold config_to_dict
  constructor
  · rw [dictSet_lookup_ne _ _ _ _ (by decide)]
    exact dictSet_lookup_self _ _ _
  · exact dictSet_lookup_self _ _ _

/-- C9: when `past_key_values` is supplied, the visual branch is skipped
(the gate at line 263 requires `past_key_values is None`), so the visual
feature block defaults to the zero-length block and the entire causal-LM
output — loss, logits and cache — is identical whether `pixel_values` is
supplied or absent, for every value of every other input and
collaborator. -/
theorem c9_pixel_values_noninterference (Img CEntry : Type)
    (collab : GitCollab Img CEntry) (lm_head : Vec → Vec)
    (image_patch_tokens : Nat) (iid : Option (List (List Nat)))
    (am : Option (List (List Int))) (pid : Option (List (List Nat)))
    (pv : PixelValues Img) (emb : Option (List (List Vec)))
    (labels : Option (List (List Int))) (pks : List CEntry)
    (uc : Option Bool) :
    lm_forward collab lm_head image_patch_tokens iid am pid (some pv) emb
        labels (some pks) uc
      = lm_forward collab lm_head image_patch_tokens iid am pid none emb
        labels (some pks) uc := by
  simp only [lm_forward]
  rw [model_forward_pixel_ignored]

/-- C10: when labels are supplied, the causal-LM forward overwrites
`use_cache` with `False` before calling the inner model, for every
caller-requested `use_cache` and every configured default, so every
successful call returns an empty (`none`) `past_key_values`. -/
theorem c10_labels_disable_cache (Img CEntry : Type)
    (collab : GitCollab Img CEntry) (lm_head : Vec → Vec)
    (image_patch_tokens : Nat) (iid : Option (List (List Nat)))
    (am : Option (List (List Int))) (pid : Option (List (List Nat)))
    (pv : Option (PixelValues Img)) (emb : Option (List (List Vec)))
    (labels : List (List Int)) (pks : Option (List CEntry))
    (uc : Option Bool) :
    (lm_forward collab lm_head image_patch_tokens iid am pid pv emb
        (some labels) pks uc).map (fun out => out.past_key_values)
      = (lm_forward collab lm_head image_patch_tokens iid am pid pv emb
        (some labels) pks uc).map (fun _ => (none : Option (List CEntry))) := by
  simp only [lm_forward, Option.isSome_some, if_true]
  cases hmf : model_forward collab iid pks am none pid pv emb (some false) with
  | error e => rfl
  | ok outputs =>
    have h := model_forward_no_cache collab iid pks am none pid pv emb outputs hmf
    simp only [Except.map]
    rw [h]

/-- Witness for C4 at N = 2, entry (1, 0). -/
theorem c4_no_image_pure_causal_witness :
    ((1 : Nat) < 2 ∧ (0 : Nat) < 2) ∧
    (maskBool (create_attention_mask 2 0 0 (generate_future_mask 2) none 0 1 0)
        = maskBool (generate_future_mask 2 1 0) ∧
     maskBool (create_attention_mask 2 0 0 (generate_future_mask 2) none 0 1 0)
        = causal_mask_spec 1 0) :=
  ⟨⟨by decide, by decide⟩,
   c4_no_image_pure_causal 2 0 1 0 (by decide) (by decide)⟩

end GitWizard
